import Mathlib

/-!
Verification of the chorus-core test orchestration engine
(`src/chorus/testcase.py`, `src/chorus/testsuite.py`, `src/chorus/utils.py`)
against its natural-language specification.

The Python code is shallowly embedded: result codes become `Nat` values,
the `Testcase.STATES` dict literal becomes an association list built with
Python dict-insertion semantics, user supplied step/fixture callables become
behaviour data (what they return or raise), exceptions become an `Exc`
value threaded through `Except`, and the mutable lists the code threads
through `Testcase.run` (`fixture_chain`, `next_chain`) become explicit
arguments and results.
-/

deriving instance DecidableEq for Except

namespace Chorus

/-! ## Result codes (`Testcase` class attributes, testcase.py lines 90-96) -/

/-- `Testcase._passvalue = 1 << 2`. -/
def passvalue : Nat := 1 <<< 2

/-- `Testcase._failvalue = 1 << 3`. -/
def failvalue : Nat := 1 <<< 3

/-- `Testcase._abortvalue = 1 << 4`. -/
def abortvalue : Nat := 1 <<< 4

/-- `Testcase._tfvalue = 1 << 5`. -/
def tfvalue : Nat := 1 <<< 5

/-- `Testcase._cfvalue = 1 << 6`. -/
def cfvalue : Nat := 1 <<< 6

/-- `Testcase._unvalue = 1 << 7`. -/
def unvalue : Nat := 1 <<< 7

/-- `Testcase._skippedvalue = 1 << 7`  (testcase.py line 96: the same
bit-shift constant as `_unvalue`). -/
def skippedvalue : Nat := 1 <<< 7

/-- Insertion of one key/value pair into a Python dict represented as an
association list in insertion order: a duplicate key overwrites the stored
value in place, a fresh key is appended. -/
def dictInsert (d : List (Nat × String)) (k : Nat) (v : String) :
    List (Nat × String) :=
  if d.any (fun p => p.1 = k) then
    d.map (fun p => if p.1 = k then (p.1, v) else p)
  else
    d ++ [(k, v)]

/-- The `Testcase.STATES` dict literal (testcase.py lines 98-106), built by
inserting the seven written entries in source order.  Because
`_unvalue = _skippedvalue`, the `"SKIPPED"` entry overwrites the
`"UNKNOWN"` one and the dict ends up with six keys. -/
def STATES : List (Nat × String) :=
  dictInsert (dictInsert (dictInsert (dictInsert (dictInsert (dictInsert
    (dictInsert [] passvalue "PASS") failvalue "FAIL") abortvalue "ABORT")
    tfvalue "TOPO_FAIL") cfvalue "CONN_FAIL") unvalue "UNKNOWN")
    skippedvalue "SKIPPED"

/-- Python `code in Testcase.STATES` (key membership test). -/
def statesMem (c : Nat) : Bool := STATES.any (fun p => p.1 = c)

/-- Python `Testcase.STATES[code]` (dict lookup). -/
def statesGet (c : Nat) : Option String :=
  (STATES.find? (fun p => p.1 = c)).map (fun p => p.2)

/-- Dict lookup with a stand-in for a `KeyError`; every reachable call in
the engine passes a key that is present. -/
def statesGetD (c : Nat) : String := (statesGet c).getD "KeyError"

/-! ## Exceptions and callable behaviours -/

/-- The two classes of Python exceptions the engine distinguishes:
`KeyboardInterrupt`/`SystemExit` (operator interrupt) versus every other
`BaseException`. -/
inductive Exc where
  | interrupt
  | err
deriving DecidableEq, Repr

/-- Behaviour of one user step/sub-step callable, covering every case the
runner inspects (testcase.py `_runStep`): return a bare value, return
`None`, return a `(code, message)` tuple, raise `AssertionError`, raise
another `Exception`, or raise `KeyboardInterrupt`/`SystemExit`. -/
inductive StepRet where
  | retNone
  | retCode (n : Nat)
  | retPair (n : Nat) (msg : String)
  | raiseAssert
  | raiseError
  | raiseInterrupt
deriving DecidableEq, Repr

/-! ## Step execution (`Testcase._runStep`, testcase.py lines 369-475) -/

/-- The single-sub-step branch of `_runStep` (lines 382-418): the value of
`rcode` when the branch finishes, or the exception it lets escape.
`except AssertionError` maps to FAIL, `except Exception` maps to ABORT;
`KeyboardInterrupt`/`SystemExit` is caught by neither clause and
propagates.  A `None` return is silently turned into PASS (line 396).
No membership check happens in this branch itself; the `STATES` lookup
of line 474 that follows it is modelled in `runStep`. -/
def runStepSingle : StepRet → Except Exc Nat
  | .retNone => .ok passvalue
  | .retCode n => .ok n
  | .retPair n _ => .ok n
  | .raiseAssert => .ok failvalue
  | .raiseError => .ok abortvalue
  | .raiseInterrupt => .error Exc.interrupt

/-- The per-sub-step `result.rcode` assignment of the parallel branch
before the `not in Testcase.STATES` check (lines 438-457).
`ChorusThread.run` (utils.py lines 36-42) catches `BaseException`, so an
interrupt inside a sub-step thread is recorded like any non-assertion
exception and becomes ABORT. -/
def subStepRaw : StepRet → Nat
  | .retNone => passvalue
  | .retCode n => n
  | .retPair n _ => n
  | .raiseAssert => failvalue
  | .raiseError => abortvalue
  | .raiseInterrupt => abortvalue

/-- The per-sub-step code after the `if result.rcode not in Testcase.STATES`
normalisation to `Testcase.UNKNOWN` (lines 459-463). -/
def subStepCode (b : StepRet) : Nat :=
  if statesMem (subStepRaw b) then subStepRaw b else unvalue

/-- The parallel branch of `_runStep` (lines 419-472): every sub-step
thread is joined, then `rcode` starts at `_passvalue` and is replaced by
any larger sub-step code (`if result.rcode > rcode`, line 470). -/
def runStepMulti (bs : List StepRet) : Nat :=
  bs.foldl (fun rcode b =>
    let r := subStepCode b
    if rcode < r then r else rcode) passvalue

/-- `Testcase._runStep` on the list of sub-step behaviours of one step:
a singleton list takes the synchronous branch, anything else the
thread-per-sub-step branch (line 382 `if len(steps) == 1`).  Before
returning, line 474 logs `Testcase.STATES[rcode]`: a dict subscript that
raises `KeyError` when `rcode` is not a key.  The single branch can reach
it with an arbitrary returned value, so an out-of-set code turns into an
exception escaping `_runStep`; the parallel branch cannot, since every
sub-step code was already normalised into `STATES`. -/
def runStep (bs : List StepRet) : Except Exc Nat :=
  match (match bs with
         | [b] => runStepSingle b
         | _ => .ok (runStepMulti bs)) with
  | .error e => .error e
  | .ok rcode => if statesMem rcode then .ok rcode else .error Exc.err

/-! ## Fixture chains (`Testcase.getFixtureChain` entries) -/

/-- Behaviour of one fixture `init`/`clean` callable: return a value, or
raise. -/
inductive FxBeh where
  | ret (n : Nat)
  | raiseErr
  | raiseInterrupt
deriving DecidableEq, Repr

/-- One entry of a fixture chain as built by `Testcase.getFixtureChain`
(testcase.py lines 544-557): the class name plus the `init`/`clean`
members when the class defines them itself (`none` models a missing dict
key). -/
structure FxEntry where
  name : String
  initBeh : Option FxBeh
  cleanBeh : Option FxBeh
deriving DecidableEq, Repr

/-! ## `Testcase.run` (testcase.py lines 186-346) -/

/-- The two chain-consistency checks at the top of `run` (lines 223-233):
`len(fixture_chain) > len(local_chain)` raises, and so does any name
mismatch at a shared position; both abort initialization the same way, so
they are folded into one prefix test of `fixture_chain` against
`local_chain`. -/
def chainMatch : List FxEntry → List FxEntry → Bool
  | [], _ => true
  | _ :: _, [] => false
  | f :: fs, l :: ls => f.name = l.name && chainMatch fs ls

/-- The fixture-initialization loop (lines 235-244) over the part of
`local_chain` not covered by `fixture_chain`.  Entries without an `init`
member are passed over (and, per the source, never appended to
`fixture_chain`).  A result equal to `_failvalue` or `_skippedvalue`
breaks the loop without appending; any other return appends the entry and
continues; an exception from the `init` call escapes the loop.  Returns
the updated `fixture_chain`, the names whose `init` ran, the final
`init_rslt`, and the escaped exception if any. -/
def initLoop :
    List FxEntry → List FxEntry → List String → Nat →
    List FxEntry × List String × Nat × Option Exc
  | [], chain, calls, rslt => (chain, calls, rslt, none)
  | fx :: rest, chain, calls, rslt =>
    match fx.initBeh with
    | none => initLoop rest chain calls rslt
    | some (FxBeh.raiseErr) => (chain, calls ++ [fx.name], rslt, some Exc.err)
    | some (FxBeh.raiseInterrupt) =>
      (chain, calls ++ [fx.name], rslt, some Exc.interrupt)
    | some (FxBeh.ret v) =>
      if v = failvalue ∨ v = skippedvalue then
        (chain, calls ++ [fx.name], v, none)
      else
        initLoop rest (chain ++ [fx]) (calls ++ [fx.name]) v

/-- The step loop (lines 262-282): steps run in ascending id order; a
non-PASS state is normalised to `Testcase.UNKNOWN` when outside `STATES`,
recorded as the testcase result code, and stops the loop unless
`c_continue_on_fail`; an exception escaping `_runStep` ends the loop.
Returns the final result code, `step_run`, the ids handed to `_runStep`,
and the escaped exception if any. -/
def stepLoop (contOnFail : Bool) :
    List (Nat × List StepRet) → Nat → Nat → List Nat →
    Nat × Nat × List Nat × Option Exc
  | [], rcode, sr, started => (rcode, sr, started, none)
  | (sid, bs) :: rest, rcode, sr, started =>
    match runStep bs with
    | .error e => (rcode, sr, started ++ [sid], some e)
    | .ok state =>
      if state ≠ passvalue then
        if statesMem state then
          if contOnFail then
            stepLoop contOnFail rest state (sr + 1) (started ++ [sid])
          else
            (state, sr + 1, started ++ [sid], none)
        else
          if contOnFail then
            stepLoop contOnFail rest unvalue (sr + 1) (started ++ [sid])
          else
            (unvalue, sr + 1, started ++ [sid], none)
      else
        stepLoop contOnFail rest rcode (sr + 1) (started ++ [sid])

/-- The index-search loop of the teardown phase (lines 309-313):
`i = 0; for i in range(len(next_chain)): if i >= len(fixture_chain) or
next_chain[i]['name'] != fixture_chain[i]['name']: break`, expressed on
the suffixes of the two chains with the running index carried along.  The
final clause returns `i - 1` because a `for` loop that exhausts its range
leaves the loop variable at the last range element (`len(next_chain) - 1`
here), while `Nat` subtraction also yields the pre-initialised `0` when
`next_chain` is empty and the body never runs. -/
def findIGo : List FxEntry → List FxEntry → Nat → Nat
  | [], _, i => i - 1
  | _ :: _, [], i => i
  | n :: ns, f :: fs, i =>
    if n.name ≠ f.name then i else findIGo ns fs (i + 1)

/-- The final value of `i` entering the teardown pop loop, for a given
`next_chain` and `fixture_chain`. -/
def findI (nc fc : List FxEntry) : Nat := findIGo nc fc 0

/-- The teardown pop loop (lines 314-325): `for j in
range(len(fixture_chain) - 1, i - 1, -1)` pops the last entry each
iteration and calls its `clean` when present, converting any exception
from the call (the inner handler catches `BaseException`) into
`_abortvalue`.  Arguments: iterations left, current chain, names cleaned
so far, current `clean_rslt`.  The `none` row for an empty chain is
unreachable because the iteration count never exceeds the chain length. -/
def popLoop : Nat → List FxEntry → List String → Nat →
    List FxEntry × List String × Nat
  | 0, fc, cleans, cr => (fc, cleans, cr)
  | k + 1, fc, cleans, cr =>
    match fc.getLast? with
    | none => (fc, cleans, cr)
    | some fx =>
      match fx.cleanBeh with
      | none => popLoop k fc.dropLast cleans cr
      | some (FxBeh.ret v) => popLoop k fc.dropLast (cleans ++ [fx.name]) v
      | some _ => popLoop k fc.dropLast (cleans ++ [fx.name]) abortvalue

/-- The whole teardown computation of the `finally` block (lines 307-325):
find `i`, then pop and clean `len(fixture_chain) - i` entries from the
inner end.  Returns the remaining chain, the cleaned names in call order,
and the final `clean_rslt`. -/
def cleanupPhase (fc nc : List FxEntry) :
    List FxEntry × List String × Nat :=
  popLoop (fc.length - findI nc fc) fc [] passvalue

/-- The inputs `Testcase.run` draws from the testcase object itself: its
name, the fixture chain of its class, its discovered steps keyed by id in
ascending order, and `c_continue_on_fail`. -/
structure TCSpec where
  cname : String
  localChain : List FxEntry
  steps : List (Nat × List StepRet)
  contOnFail : Bool
deriving DecidableEq, Repr

/-- What the `try` body of `run` (lines 202-292 together with the two
`except` clauses) leaves behind for the `finally` block: the result code,
`step_run`, the step ids started, the `init` calls made, the mutated
`fixture_chain` and `next_chain`, the phases appended to `failed_on`, and
the exception still pending after the `except` clauses (only an operator
interrupt is re-raised; every other exception is absorbed into ABORT). -/
structure TryOut where
  rcode : Nat
  stepRun : Nat
  started : List Nat
  initCalls : List String
  chain : List FxEntry
  nchain : List FxEntry
  failedOn : List String
  pending : Option Exc
deriving DecidableEq, Repr

/-- The `try` body of `run`: chain validation, fixture initialization
(with the `not in STATES` laundering of `init_rslt` at lines 247-249 and
the three-way dispatch at lines 250-263), then the step loop.  The generic
`except BaseException` clause (lines 286-292) turns a non-interrupt
exception into result ABORT with a `failed_on` record; the interrupt
clause (lines 283-285) re-raises, leaving the exception pending. -/
def tryPhase (spec : TCSpec) (fc nc : List FxEntry) : TryOut :=
  if chainMatch fc spec.localChain = false then
    ⟨abortvalue, 0, [], [], fc, [], ["init"], none⟩
  else
    match initLoop (spec.localChain.drop fc.length) fc [] passvalue with
    | (chain2, calls, _, some Exc.interrupt) =>
      ⟨passvalue, 0, [], calls, chain2, nc, [], some Exc.interrupt⟩
    | (chain2, calls, _, some Exc.err) =>
      ⟨abortvalue, 0, [], calls, chain2, nc, ["init"], none⟩
    | (chain2, calls, rslt, none) =>
      let rslt2 := if statesMem rslt then rslt else passvalue
      if rslt2 = skippedvalue then
        ⟨skippedvalue, 0, [], calls, chain2, nc, [], none⟩
      else if rslt2 ≠ passvalue then
        ⟨rslt2, 0, [], calls, chain2, nc, ["init"], none⟩
      else
        match stepLoop spec.contOnFail spec.steps passvalue 0 [] with
        | (rcode, sr, started, some Exc.interrupt) =>
          ⟨rcode, sr, started, calls, chain2, nc, [], some Exc.interrupt⟩
        | (_, sr, started, some Exc.err) =>
          ⟨abortvalue, sr, started, calls, chain2, nc, ["step"], none⟩
        | (rcode, sr, started, none) =>
          let failed := if rcode = passvalue then [] else ["step"]
          ⟨rcode, sr, started, calls, chain2, nc, failed, none⟩

/-- Everything observable about one `Testcase.run` invocation: the final
result code, `step_run`, the step ids started, the `init` and `clean`
calls made in order, the `fixture_chain` as left for the caller, and the
`failed_on` phase records. -/
structure RunRes where
  rcode : Nat
  stepRun : Nat
  started : List Nat
  initCalls : List String
  cleanCalls : List String
  chainAfter : List FxEntry
  failedOn : List String
deriving DecidableEq, Repr

/-- The `return self.result` statements inside the `finally` block (lines
298 and 346).  In Python a `return` executed in a `finally` block discards
any exception pending from the `try`/`except` part, so the pending
exception is dropped and the call completes normally whatever `pending`
holds. -/
def finallyReturn (_pending : Option Exc) (r : RunRes) : Except Exc RunRes :=
  Except.ok r

/-- `Testcase.run`: the `try` body followed by the `finally` block.  When
the result code is `_skippedvalue` the `finally` block returns before the
teardown section (lines 294-298); otherwise it runs the teardown, launders
`clean_rslt` through `STATES` (lines 326-328) and overwrites the result
code on a non-PASS cleanup (lines 329-332), then returns. -/
def run (spec : TCSpec) (fc nc : List FxEntry) : Except Exc RunRes :=
  let t := tryPhase spec fc nc
  if t.rcode = skippedvalue then
    finallyReturn t.pending
      ⟨t.rcode, t.stepRun, t.started, t.initCalls, [], t.chain, t.failedOn⟩
  else
    match cleanupPhase t.chain t.nchain with
    | (chain2, cleans, cr) =>
      let cr2 := if statesMem cr then cr else passvalue
      if cr2 ≠ passvalue then
        finallyReturn t.pending
          ⟨cr2, t.stepRun, t.started, t.initCalls, cleans, chain2,
            t.failedOn ++ ["cleanup"]⟩
      else
        finallyReturn t.pending
          ⟨t.rcode, t.stepRun, t.started, t.initCalls, cleans, chain2,
            t.failedOn⟩

/-! ## `Testsuite` (testsuite.py) -/

/-- One scheduled entry of `Testsuite.cases` (testsuite.py lines 251-257)
restricted to the fields the run loop reads: instance name, topology name,
`t_case_fx`, and the data `Testcase.run` needs. -/
structure SuiteCase where
  cname : String
  topoName : String
  chain : List FxEntry
  steps : List (Nat × List StepRet)
  contOnFail : Bool
deriving DecidableEq, Repr

/-- Behaviour of the topology collaborator: whether `Topo.getTopo` finds
the named topology, and whether `init`/`clean` on it raise. -/
structure TopoBeh where
  found : String → Bool
  initRaises : String → Bool
  cleanRaises : String → Bool

/-- Observable events of one `Testsuite.run`, in occurrence order. -/
inductive Ev where
  | topoInit (t : String)
  | topoClean (t : String)
  | fxInit (c : String) (fx : String)
  | fxClean (c : String) (fx : String)
  | stepStart (c : String) (sid : Nat)
  | caseResult (c : String) (status : String)
deriving DecidableEq, Repr

/-- `Testsuite._add_case_result` (lines 445-457): the `_case_results` dict
maps the human-readable status to the list of case names, in insertion
order. -/
def histAdd (h : List (String × List String)) (k v : String) :
    List (String × List String) :=
  if h.any (fun p => p.1 = k) then
    h.map (fun p => if p.1 = k then (p.1, p.2 ++ [v]) else p)
  else
    h ++ [(k, [v])]

/-- The events produced inside one `Testcase.run` call, tagged with the
case name: fixture `init` calls, then step executions, then fixture
`clean` calls — the order the three phases run in. -/
def caseEvents (c : SuiteCase) (r : RunRes) : List Ev :=
  r.initCalls.map (Ev.fxInit c.cname) ++
  r.started.map (Ev.stepStart c.cname) ++
  r.cleanCalls.map (Ev.fxClean c.cname)

/-- The main loop of `Testsuite.run` (lines 319-413) over the sorted case
list, carrying `cur_topo`, the shared `fixture_chain` list, the event
trace and the `_case_results` histogram.  On a topology lookup failure the
case is recorded SKIPPED and the loop continues, `cur_topo` now holding
the `None` that `Topo.getTopo` returned (line 335), so the next case
re-enters the transition block; on a topology `init` exception the
current case alone is
recorded TOPO_FAIL and the loop exits (`break`, lines 358-367); otherwise
`next_chain` is the next case's `t_case_fx` when it shares the topology
(lines 368-373), the case runs, and after the group's last case the
topology is cleaned, a failure there degrading that case's recorded state
to `_tfvalue` (lines 404-410).  An exception escaping `Testcase.run` would
propagate out of the suite loop, which has no handler for it. -/
def suiteLoop (tb : TopoBeh) :
    List SuiteCase → Option String → List FxEntry → List Ev →
    List (String × List String) →
    Except Exc (List Ev × List (String × List String))
  | [], _, _, evs, h => .ok (evs, h)
  | c :: rest, curTopo, fchain, evs, h =>
    if curTopo ≠ some c.topoName ∧ tb.found c.topoName = false then
      suiteLoop tb rest none fchain
        (evs ++ [Ev.caseResult c.cname (statesGetD skippedvalue)])
        (histAdd h (statesGetD skippedvalue) c.cname)
    else if curTopo ≠ some c.topoName ∧ tb.initRaises c.topoName then
      .ok (evs ++ [Ev.caseResult c.cname (statesGetD tfvalue)],
        histAdd h (statesGetD tfvalue) c.cname)
    else
      let fchain2 := if curTopo ≠ some c.topoName then [] else fchain
      let evs2 := if curTopo ≠ some c.topoName then
        evs ++ [Ev.topoInit c.topoName] else evs
      let nc := match rest with
        | c2 :: _ => if c2.topoName = c.topoName then c2.chain else []
        | [] => []
      let groupEnd : Bool := match rest with
        | c2 :: _ => c2.topoName != c.topoName
        | [] => true
      match run ⟨c.cname, c.chain, c.steps, c.contOnFail⟩ fchain2 nc with
      | .error e => .error e
      | .ok r =>
        let state := if groupEnd && tb.cleanRaises c.topoName then
          tfvalue else r.rcode
        let evs3 := if groupEnd then
          evs2 ++ caseEvents c r ++ [Ev.topoClean c.topoName]
        else
          evs2 ++ caseEvents c r
        suiteLoop tb rest (some c.topoName) r.chainAfter
          (evs3 ++ [Ev.caseResult c.cname (statesGetD state)])
          (histAdd h (statesGetD state) c.cname)

/-- `Testsuite.run` after sorting: drive the case loop, then compute the
boolean return value (lines 436-443): `True` unless some histogram key is
neither `STATES[PASS]` nor `STATES[SKIPPED]`. -/
def suiteRun (tb : TopoBeh) (cases : List SuiteCase) :
    Except Exc (List Ev × List (String × List String) × Bool) :=
  match suiteLoop tb cases none [] [] [] with
  | .error e => .error e
  | .ok (evs, h) =>
    .ok (evs, h, h.all (fun p =>
      p.1 = statesGetD passvalue ∨ p.1 = statesGetD skippedvalue))

/-! ## `Testsuite._sortcase` (testsuite.py lines 264-283) -/

/-- Python 3 comparison `a < b` on the `t_case_fx` sort keys, which are
lists of dicts.  List comparison scans for the first position where the
elements differ under `==` and compares those elements with `<`; two dicts
support `==` but not `<`, so an order query between unequal entries raises
`TypeError`.  When one list is exhausted first, the shorter list is the
smaller. -/
def pyChainLt : List FxEntry → List FxEntry → Except String Bool
  | [], [] => .ok false
  | [], _ :: _ => .ok true
  | _ :: _, [] => .ok false
  | x :: xs, y :: ys =>
    if x = y then pyChainLt xs ys
    else .error "TypeError: '<' not supported between instances of 'dict'"

/-- Stable insertion of `x` into an already sorted list under a fallible
strict order: `x` goes in front of the first element it is strictly below,
so it lands after every earlier-scheduled equal element. -/
def stableInsert (lt : α → α → Except String Bool) (x : α) :
    List α → Except String (List α)
  | [] => .ok [x]
  | d :: ds =>
    match lt x d with
    | .error e => .error e
    | .ok true => .ok (x :: d :: ds)
    | .ok false => (stableInsert lt x ds).map (fun r => d :: r)

/-- A stable comparison sort under a fallible strict order, processing the
elements in scheduling order; it performs exactly the comparisons a
2-element `list.sort` performs, and raises iff an order query raises. -/
def stableSort (lt : α → α → Except String Bool) (l : List α) :
    Except String (List α) :=
  l.foldlM (fun acc x => stableInsert lt x acc) []

/-- The topology grouping of `_sortcase` (lines 266-273): a dict from
topology name to the cases bearing it, in first-appearance order. -/
def groupByTopo (cases : List SuiteCase) :
    List (String × List SuiteCase) :=
  cases.foldl (fun d c =>
    if d.any (fun p => p.1 = c.topoName) then
      d.map (fun p => if p.1 = c.topoName then (p.1, p.2 ++ [c]) else p)
    else
      d ++ [(c.topoName, [c])]) []

/-- `Testsuite._sortcase`: group the cases by topology, sort each group by
`t_case_fx` (Python list-of-dict comparison), sort the groups by case
count, and concatenate.  Any `TypeError` from a chain comparison escapes
`_sortcase` (and so `Testsuite.run`, which calls it first). -/
def sortcase (cases : List SuiteCase) : Except String (List SuiteCase) :=
  match (groupByTopo cases).mapM (fun p =>
      (stableSort (fun a b => pyChainLt a.chain b.chain) p.2)) with
  | .error e => .error e
  | .ok groups =>
    match stableSort (fun a b => Except.ok (decide (a.length < b.length)))
        groups with
    | .error e => .error e
    | .ok d => .ok d.flatten

/-! ## `Result.__init__` and its shared default list (testcase.py 607-623)

Python evaluates a `def`'s default parameter values once, when the `def`
statement itself executes at module load; every later call that omits the
parameter receives the very same object.  The heap of list objects is made
explicit: a `PyState` holds the list cells, a cell index models an object
reference. -/

/-- The heap of Python list objects reachable from `Result` values; a cell
index is an object reference, and cell `0` is created when module
`chorus.testcase` is loaded, by evaluating the default expression
`step_results=[]` in the header of `Result.__init__`. -/
structure PyState where
  cells : List (List Nat)
deriving DecidableEq, Repr

/-- The reference produced by evaluating the default expression
`step_results=[]` at module load: the first allocated cell. -/
def resultDefaultCell : Nat := 0

/-- The heap right after module load: only the default cell, empty. -/
def loadedState : PyState := ⟨[[]]⟩

/-- Reading a list object through a reference. -/
def readCell (s : PyState) (r : Nat) : List Nat :=
  (s.cells.get? r).getD []

/-- `lst.append(v)` through a reference. -/
def cellAppend (s : PyState) (r : Nat) (v : Nat) : PyState :=
  ⟨s.cells.set r (readCell s r ++ [v])⟩

/-- A `Result` object, keeping the fields the claims are about: the
`step_results` attribute is a reference to a list object, not a list. -/
structure ResultObj where
  name : String
  step_results : Nat
  rcode : Nat
deriving DecidableEq, Repr

/-- `Result.__init__` (lines 607-623): when the caller passes no
`step_results` argument the parameter is bound to the module-load-time
default object `resultDefaultCell`; otherwise to the caller's reference.
No new list is allocated either way. -/
def mkResult (s : PyState) (name : String) (arg : Option Nat) (rcode : Nat) :
    ResultObj × PyState :=
  match arg with
  | none => (⟨name, resultDefaultCell, rcode⟩, s)
  | some r => (⟨name, r, rcode⟩, s)

/-- The `Result` construction in `Testcase.__init__` (line 118):
`Result(self.name, rcode=self._unvalue)` — no `step_results` argument. -/
def testcaseNewResult (s : PyState) (name : String) : ResultObj × PyState :=
  mkResult s name none unvalue

/-! ## Specification-side definitions used for comparison -/

/-- Modelled from the spec (§4.4 diff operation): the length of the
longest common prefix of two chains, comparing entries by name at matching
positions. -/
def lcpLen : List FxEntry → List FxEntry → Nat
  | x :: xs, y :: ys => if x.name = y.name then lcpLen xs ys + 1 else 0
  | _, _ => 0

/-- The position the implemented teardown actually starts from, phrased
through `lcpLen`: the longest-common-prefix length, except that when the
whole (necessarily nonempty) `next_chain` is a name-prefix of the applied
chain the start slips one position into the shared prefix.  When
`next_chain` is empty both branches give `0`. -/
def teardownStart (nc fc : List FxEntry) : Nat :=
  if lcpLen nc fc = nc.length then nc.length - 1 else lcpLen nc fc

/-- Name of an entry when it carries a `clean` member. -/
def cleanName (e : FxEntry) : Option String :=
  e.cleanBeh.map (fun _ => e.name)

/-! ## Concrete scenario data for the claims -/

/-- Fixture entry X: `init` and `clean` both defined, both returning
`Testcase.PASS`. -/
def fxX : FxEntry := ⟨"X", some (FxBeh.ret passvalue), some (FxBeh.ret passvalue)⟩

/-- Fixture entry Y, like `fxX`. -/
def fxY : FxEntry := ⟨"Y", some (FxBeh.ret passvalue), some (FxBeh.ret passvalue)⟩

/-- Fixture entry Z, like `fxX`. -/
def fxZ : FxEntry := ⟨"Z", some (FxBeh.ret passvalue), some (FxBeh.ret passvalue)⟩

/-- Fixture entry whose `init` returns `Testcase.SKIPPED` and which also
defines a `clean`. -/
def fxSkip : FxEntry :=
  ⟨"FSKIP", some (FxBeh.ret skippedvalue), some (FxBeh.ret passvalue)⟩

/-- A testcase with chain `[X, Y]` and one always-passing step. -/
def tcChainXY : TCSpec :=
  ⟨"TC", [fxX, fxY], [(1, [StepRet.retCode passvalue])], false⟩

/-- A testcase whose second init fixture requests a skip; both its
fixtures define `clean` members. -/
def tcSkip : TCSpec :=
  ⟨"TC", [fxX, fxSkip], [(1, [StepRet.retCode passvalue])], false⟩

/-- A testcase whose single step raises `KeyboardInterrupt`, over an
applied fixture `X`. -/
def tcInterrupt : TCSpec :=
  ⟨"TC", [fxX], [(1, [StepRet.raiseInterrupt])], false⟩

/-- A topology collaborator that always succeeds. -/
def tbOK : TopoBeh := ⟨fun _ => true, fun _ => false, fun _ => false⟩

/-- A topology collaborator whose topology `"TA"` faults on `init`. -/
def tbTAfails : TopoBeh := ⟨fun _ => true, fun t => t = "TA", fun _ => false⟩

/-- Scheduled case A on topology `"T"` with ancestry chain `[X, Y]`. -/
def caseA : SuiteCase :=
  ⟨"A", "T", [fxX, fxY], [(1, [StepRet.retCode passvalue])], false⟩

/-- Scheduled case B on topology `"T"` with ancestry chain `[X, Y, Z]`. -/
def caseB : SuiteCase :=
  ⟨"B", "T", [fxX, fxY, fxZ], [(1, [StepRet.retCode passvalue])], false⟩

/-- The full event trace of running `caseA` then `caseB` on `tbOK`. -/
def traceAB : List Ev :=
  [Ev.topoInit "T", Ev.fxInit "A" "X", Ev.fxInit "A" "Y", Ev.stepStart "A" 1,
   Ev.caseResult "A" "PASS",
   Ev.fxInit "B" "Z", Ev.stepStart "B" 1,
   Ev.fxClean "B" "Z", Ev.fxClean "B" "Y", Ev.fxClean "B" "X",
   Ev.topoClean "T", Ev.caseResult "B" "PASS"]

/-- A scheduled case whose step 1 has two parallel sub-steps, one
returning PASS and one returning the out-of-set value `3` (the latter is
normalised to `Testcase.UNKNOWN` inside the parallel branch, before the
`STATES` lookup of line 474 can raise). -/
def caseUnknown : SuiteCase :=
  ⟨"U", "T", [], [(1, [StepRet.retCode passvalue, StepRet.retCode 3])],
    false⟩

/-- First scheduled case of the topology-`"TA"` group. -/
def caseTA1 : SuiteCase :=
  ⟨"c1", "TA", [], [(1, [StepRet.retCode passvalue])], false⟩

/-- Second scheduled case of the topology-`"TA"` group. -/
def caseTA2 : SuiteCase :=
  ⟨"c2", "TA", [], [(1, [StepRet.retCode passvalue])], false⟩

/-- A scheduled case of a later group, on topology `"TB"`. -/
def caseTB3 : SuiteCase :=
  ⟨"c3", "TB", [], [(1, [StepRet.retCode passvalue])], false⟩

/-- A fixture entry named `"A"` with only an `init` member. -/
def entryA : FxEntry := ⟨"A", some (FxBeh.ret passvalue), none⟩

/-- A fixture entry named `"B"` with only an `init` member. -/
def entryB : FxEntry := ⟨"B", some (FxBeh.ret passvalue), none⟩

/-- Scheduled case with chain `[entryA]`. -/
def caseChainA : SuiteCase :=
  ⟨"cA", "T", [entryA], [(1, [StepRet.retCode passvalue])], false⟩

/-- Scheduled case with chain `[entryB]`, same topology as `caseChainA`. -/
def caseChainB : SuiteCase :=
  ⟨"cB", "T", [entryB], [(1, [StepRet.retCode passvalue])], false⟩

/-- Scheduled case with chain `[entryA, entryB]`. -/
def caseChainAB : SuiteCase :=
  ⟨"cAB", "T", [entryA, entryB], [(1, [StepRet.retCode passvalue])], false⟩

/-- Scheduled case with chain `[entryA]`, used with `caseChainAB`. -/
def caseChainA2 : SuiteCase :=
  ⟨"cA2", "T", [entryA], [(1, [StepRet.retCode passvalue])], false⟩

/-! ## Helper lemmas -/

/-- The index-search loop expressed through the longest common prefix: it
lands on `lcpLen - 1 = len(next_chain) - 1` when the whole `next_chain`
matched (no `break`), on the longest-common-prefix length otherwise. -/
theorem findIGo_eq (ns : List FxEntry) : ∀ (fs : List FxEntry) (i : Nat),
    findIGo ns fs i =
      if lcpLen ns fs = ns.length then i + ns.length - 1
      else i + lcpLen ns fs := by
  induction ns with
  | nil => intro fs i; simp [findIGo, lcpLen]
  | cons n ns ih =>
    intro fs i
    cases fs with
    | nil =>
      simp [findIGo, lcpLen]
    | cons f fs =>
      by_cases h : n.name = f.name
      · simp only [findIGo, lcpLen, h, if_pos]
        rw [if_neg (by simp), ih fs (i + 1)]
        simp only [List.length_cons]
        split_ifs <;> omega
      · simp [findIGo, lcpLen, h]

/-- The longest common prefix never exceeds the second chain. -/
theorem lcpLen_le_right (ns : List FxEntry) : ∀ (fs : List FxEntry),
    lcpLen ns fs ≤ fs.length := by
  induction ns with
  | nil => intro fs; simp [lcpLen]
  | cons n ns ih =>
    intro fs
    cases fs with
    | nil => simp [lcpLen]
    | cons f fs =>
      simp only [lcpLen, List.length_cons]
      split
      · exact Nat.succ_le_succ (ih fs)
      · omega

/-- The final value of the loop index `i` equals `teardownStart`. -/
theorem findI_eq (nc fc : List FxEntry) :
    findI nc fc = teardownStart nc fc := by
  unfold findI teardownStart
  rw [findIGo_eq]
  split <;> omega

/-- The teardown start position never exceeds the applied chain. -/
theorem teardownStart_le (nc fc : List FxEntry) :
    teardownStart nc fc ≤ fc.length := by
  unfold teardownStart
  have h := lcpLen_le_right nc fc
  split <;> omega

/-- Unrolling the pop loop: popping `k` entries leaves the first
`length - k` entries applied and calls `clean`, innermost first, on
exactly the popped entries that have one. -/
theorem popLoop_spec (k : Nat) : ∀ (fc : List FxEntry) (cleans : List String)
    (cr : Nat), k ≤ fc.length →
    (popLoop k fc cleans cr).1 = fc.take (fc.length - k) ∧
    (popLoop k fc cleans cr).2.1 =
      cleans ++ (fc.drop (fc.length - k)).reverse.filterMap cleanName := by
  induction k with
  | zero =>
    intro fc cleans cr _
    simp [popLoop]
  | succ k ih =>
    intro fc cleans cr hk
    induction fc using List.reverseRecOn with
    | nil => simp at hk
    | append_singleton l a _ =>
      have hlen : (l ++ [a]).length = l.length + 1 := by simp
      have hk2 : k ≤ l.length := by
        rw [hlen] at hk; omega
      have hglast : (l ++ [a]).getLast? = some a := by
        simp [List.getLast?_concat]
      have hdl : (l ++ [a]).dropLast = l := by
        simp
      have hidx : (l ++ [a]).length - (k + 1) = l.length - k := by
        rw [hlen]; omega
      have htake : (l ++ [a]).take (l.length - k) = l.take (l.length - k) := by
        rw [List.take_append_of_le_length (by omega)]
      have hdrop : (l ++ [a]).drop (l.length - k)
          = l.drop (l.length - k) ++ [a] := by
        rw [List.drop_append_of_le_length (by omega)]
      cases hb : a.cleanBeh with
      | none =>
        have hstep : popLoop (k + 1) (l ++ [a]) cleans cr
            = popLoop k l cleans cr := by
          rw [popLoop.eq_def]
          simp [hglast, hdl, hb]
        rw [hstep, hidx, htake, hdrop]
        have h2 := ih l cleans cr hk2
        refine ⟨h2.1, ?_⟩
        rw [h2.2]
        simp [cleanName, hb]
      | some b =>
        cases b with
        | ret v =>
          have hstep : popLoop (k + 1) (l ++ [a]) cleans cr
              = popLoop k l (cleans ++ [a.name]) v := by
            rw [popLoop.eq_def]
            simp [hglast, hdl, hb]
          rw [hstep, hidx, htake, hdrop]
          have h2 := ih l (cleans ++ [a.name]) v hk2
          refine ⟨h2.1, ?_⟩
          rw [h2.2]
          simp [cleanName, hb]
        | raiseErr =>
          have hstep : popLoop (k + 1) (l ++ [a]) cleans cr
              = popLoop k l (cleans ++ [a.name]) abortvalue := by
            rw [popLoop.eq_def]
            simp [hglast, hdl, hb]
          rw [hstep, hidx, htake, hdrop]
          have h2 := ih l (cleans ++ [a.name]) abortvalue hk2
          refine ⟨h2.1, ?_⟩
          rw [h2.2]
          simp [cleanName, hb]
        | raiseInterrupt =>
          have hstep : popLoop (k + 1) (l ++ [a]) cleans cr
              = popLoop k l (cleans ++ [a.name]) abortvalue := by
            rw [popLoop.eq_def]
            simp [hglast, hdl, hb]
          rw [hstep, hidx, htake, hdrop]
          have h2 := ih l (cleans ++ [a.name]) abortvalue hk2
          refine ⟨h2.1, ?_⟩
          rw [h2.2]
          simp [cleanName, hb]

/-- The teardown phase characterised: entries from `teardownStart` on are
torn down innermost first, the entries before it stay applied. -/
theorem cleanup_spec (fc nc : List FxEntry) :
    (cleanupPhase fc nc).1 = fc.take (teardownStart nc fc) ∧
    (cleanupPhase fc nc).2.1 =
      (fc.drop (teardownStart nc fc)).reverse.filterMap cleanName := by
  unfold cleanupPhase
  rw [findI_eq]
  have hle := teardownStart_le nc fc
  have h := popLoop_spec (fc.length - teardownStart nc fc) fc [] passvalue
    (by omega)
  have hidx : fc.length - (fc.length - teardownStart nc fc)
      = teardownStart nc fc := by omega
  rw [hidx] at h
  simpa using h

/-! ## Claims -/

/-- Claim C1, counterexample.  The claim says the teardown phase tears
down exactly the applied entries beyond the longest common prefix with
`nextFixtureChain`, and in particular tears down nothing when
`nextFixtureChain` equals a prefix of the applied chain.  Here the applied
chain and `nextFixtureChain` are both `[X, Y]`, the common prefix covers
the whole applied chain (`lcpLen = 2`), yet the run tears down `Y`: the
index loop exhausts its range without a `break` and leaves `i` at
`len(next_chain) - 1 = 1`, one position inside the shared prefix. -/
theorem C1_counterexample :
    run tcChainXY [fxX, fxY] [fxX, fxY] =
      Except.ok ⟨passvalue, 1, [1], [], ["Y"], [fxX], []⟩ ∧
    lcpLen [fxX, fxY] [fxX, fxY] = 2 := by decide

/-- Claim C1 (amended): the teardown phase tears down exactly the applied
entries at positions `teardownStart` and beyond, innermost first, and
leaves the entries before that position applied — where `teardownStart`
is the longest common name-prefix length `L`, except that when the whole
nonempty `nextFixtureChain` is a name-prefix of the applied chain
(`L = len(nextFixtureChain)`) teardown starts one position earlier, at
`L - 1`, also tearing down the innermost shared entry. -/
theorem C1_teardown_amended (fc nc : List FxEntry) :
    (cleanupPhase fc nc).1 = fc.take (teardownStart nc fc) ∧
    (cleanupPhase fc nc).2.1 =
      (fc.drop (teardownStart nc fc)).reverse.filterMap cleanName :=
  cleanup_spec fc nc

/-- Claim C2, counterexample.  The claim says cleanup fixtures still run
for a skipped testcase.  In `tcSkip` the fixture chain is `[X, FSKIP]`,
both entries define `clean`, `X.init` passes and `FSKIP.init` returns
SKIPPED: the run ends SKIPPED with zero steps, but its `clean` call list
is empty — the `finally` block returns before the teardown section when
the result code is `_skippedvalue` (testcase.py lines 294-298). -/
theorem C2_counterexample :
    run tcSkip [] [] =
      Except.ok ⟨skippedvalue, 0, [], ["X", "FSKIP"], [], [fxX], []⟩ ∧
    (tcSkip.localChain.filter (fun e => e.cleanBeh.isSome)).length = 2 := by
  decide

/-- Claim C2 (amended): if an init fixture returns SKIPPED, the testcase
executes zero steps and finishes with result code SKIPPED, and the
cleanup phase is skipped entirely — no cleanup fixture runs during that
testcase's run (the fixtures already applied stay in the caller's
fixture chain). -/
theorem C2_skip_amended (spec : TCSpec) (fc nc ch : List FxEntry)
    (calls : List String)
    (hm : chainMatch fc spec.localChain = true)
    (h : initLoop (spec.localChain.drop fc.length) fc [] passvalue =
      (ch, calls, skippedvalue, none)) :
    run spec fc nc = Except.ok ⟨skippedvalue, 0, [], calls, [], ch, []⟩ := by
  have hsm : statesMem skippedvalue = true := by decide
  unfold run tryPhase
  rw [h]
  simp [hm, hsm, finallyReturn]

/-- Claim C2, witness for the amended theorem at the concrete `tcSkip`
scenario. -/
theorem C2_skip_witness :
    run tcSkip [] [] =
      Except.ok ⟨skippedvalue, 0, [], ["X", "FSKIP"], [], [fxX], []⟩ :=
  C2_skip_amended tcSkip [] [] [fxX] ["X", "FSKIP"] (by decide) (by decide)

/-- Claim C3.  The claim says UNKNOWN is distinct from SKIPPED and makes
the suite fail.  In the code `_unvalue` and `_skippedvalue` are the same
constant `1 << 7` and the `STATES` entry for it reads `"SKIPPED"` (the
dict literal's later duplicate key wins).  The collision surfaces through
a parallel step: in `caseUnknown`, one of two sub-steps returns the
out-of-set value `3`, which the parallel branch records as
`Testcase.UNKNOWN` (third conjunct); the step aggregate is therefore 128,
the suite's histogram key reads `"SKIPPED"` and `Testsuite.run` returns
`True`.  A single sub-step returning `3` instead reaches the
`Testcase.STATES[rcode]` subscript at line 474, whose `KeyError` is
absorbed into ABORT (last conjunct), so it is never recorded as UNKNOWN
either. -/
theorem C3_unknown_is_skipped_bug :
    unvalue = skippedvalue ∧
    statesGet unvalue = some "SKIPPED" ∧
    subStepCode (StepRet.retCode 3) = unvalue ∧
    suiteRun tbOK [caseUnknown] = Except.ok
      ([Ev.topoInit "T", Ev.stepStart "U" 1, Ev.topoClean "T",
        Ev.caseResult "U" "SKIPPED"],
       [("SKIPPED", ["U"])], true) ∧
    runStep [StepRet.retCode 3] = Except.error Exc.err := by decide

/-- Claim C4.  The claim says a topology-initialization fault marks every
testcase of the group TOPO_FAIL and execution moves to the next group.
With group `TA = [c1, c2]` whose topology faults on `init` and a later
group `TB = [c3]`, the suite records TOPO_FAIL for `c1` alone and stops:
no event is produced for `c2` or `c3`, because the handler ends in
`break`, not `continue` (testsuite.py line 367). -/
theorem C4_topo_fault_stops_suite_bug :
    suiteRun tbTAfails [caseTA1, caseTA2, caseTB3] = Except.ok
      ([Ev.caseResult "c1" "TOPO_FAIL"], [("TOPO_FAIL", ["c1"])], false) := by
  decide

/-- Claim C5.  The claim says an interrupt raised during the step phase is
re-raised after teardown and aborts the suite.  For `tcInterrupt`, whose
single step raises `KeyboardInterrupt`, the interrupt is still pending
after the `except` clauses (it was re-raised at testcase.py line 285) and
the teardown does run (`clean` of `X` is called) — but `Testcase.run`
returns the `Result` normally, because the `return self.result` inside the
`finally` block (line 346) discards the pending exception, so nothing
propagates to the suite scheduler. -/
theorem C5_interrupt_swallowed_bug :
    (tryPhase tcInterrupt [] []).pending = some Exc.interrupt ∧
    run tcInterrupt [] [] =
      Except.ok ⟨passvalue, 0, [1], ["X"], ["X"], [], []⟩ := by decide

/-- Claim C6.  The claim says each topology group is sorted by fixture
chain with entries compared lexicographically by name, and that the
sorting completes for any set of schedulable testcases.  The sort key
`t_case_fx` is a list of dicts, and Python 3 refuses to order two unequal
dicts: a group holding the chains `[entryA]` and `[entryB]` raises
`TypeError` inside `list.sort`.  The second conjunct shows the comparison
that is performed instead of a by-name one: chains that are equal or in a
prefix relation are ordered by length alone, shortest first. -/
theorem C6_sort_typeerror_bug :
    sortcase [caseChainA, caseChainB] =
      Except.error "TypeError: '<' not supported between instances of 'dict'" ∧
    sortcase [caseChainAB, caseChainA2] =
      Except.ok [caseChainA2, caseChainAB] := by decide

/-- Claim C7.  Cases A (chain `[X, Y]`) and B (chain `[X, Y, Z]`) run
consecutively on topology T: the full event trace shows `X.init` and
`Y.init` called exactly once in total (during A's run), B's run adding
only `Z.init`, and the teardown of X and Y happening inside B's run after
B's step — deferred until B completes. -/
theorem C7_fixture_reuse :
    suiteRun tbOK [caseA, caseB] =
      Except.ok (traceAB, [("PASS", ["A", "B"])], true) ∧
    traceAB.count (Ev.fxInit "A" "X") + traceAB.count (Ev.fxInit "B" "X")
      = 1 ∧
    traceAB.count (Ev.fxInit "A" "Y") + traceAB.count (Ev.fxInit "B" "Y")
      = 1 ∧
    traceAB.filter (fun e =>
      match e with
      | Ev.fxInit "B" _ => true
      | _ => false) = [Ev.fxInit "B" "Z"] ∧
    traceAB.indexOf (Ev.stepStart "B" 1)
      < traceAB.indexOf (Ev.fxClean "B" "Y") ∧
    traceAB.indexOf (Ev.stepStart "B" 1)
      < traceAB.indexOf (Ev.fxClean "B" "X") := by decide

/-- Claim C8, counterexample.  The claim says ABORT is the greatest code
of the aggregation order and SKIPPED is excluded from the worst-of
comparison.  Sub-steps `{PASS, SKIPPED}` aggregate to SKIPPED (128, the
largest numeric code, not excluded), and sub-steps `{ABORT, TOPO_FAIL}`
aggregate to TOPO_FAIL (32 > 16), not ABORT. -/
theorem C8_counterexample :
    runStep [StepRet.retCode passvalue, StepRet.retCode skippedvalue] =
      Except.ok skippedvalue ∧
    runStep [StepRet.retCode abortvalue, StepRet.retCode tfvalue] =
      Except.ok tfvalue ∧
    skippedvalue ≠ passvalue ∧ tfvalue ≠ abortvalue := by decide

/-- Claim C8 (amended): the aggregate result of a multi-sub-step step is
the plain numeric maximum of the sub-step codes (each first normalised to
UNKNOWN when outside the known set), starting from PASS, under the order
PASS(4) < FAIL(8) < ABORT(16) < TOPO_FAIL(32) < CONN_FAIL(64) <
UNKNOWN = SKIPPED(128); SKIPPED is not excluded and, being the largest
code, wins over any sibling. -/
theorem C8_aggregate_amended (bs : List StepRet) :
    runStepMulti bs = (bs.map subStepCode).foldl max passvalue ∧
    passvalue < failvalue ∧ failvalue < abortvalue ∧ abortvalue < tfvalue ∧
    tfvalue < cfvalue ∧ cfvalue < unvalue ∧ unvalue = skippedvalue := by
  have key : ∀ (l : List StepRet) (acc : Nat),
      l.foldl (fun rcode b =>
        let r := subStepCode b
        if rcode < r then r else rcode) acc
      = (l.map subStepCode).foldl max acc := by
    intro l
    induction l with
    | nil => intro acc; rfl
    | cons x xs ih =>
      intro acc
      simp only [List.map_cons, List.foldl_cons]
      rw [ih]
      congr 1
      rcases Nat.lt_or_ge acc (subStepCode x) with hlt | hge
      · simp [hlt, Nat.max_eq_right (Nat.le_of_lt hlt)]
      · simp [Nat.not_lt.mpr hge, Nat.max_eq_left hge]
  exact ⟨key bs passvalue, by decide, by decide, by decide, by decide,
    by decide, by decide⟩

/-- Claim C9.  Sub-steps `{PASS, FAIL, PASS}` aggregate to FAIL and
sub-steps `{PASS, ABORT}` to ABORT; the third conjunct shows the last
sub-step still contributes, i.e. the aggregate is computed only after
every sub-step result has been collected. -/
theorem C9_parallel_aggregation :
    runStep [StepRet.retCode passvalue, StepRet.retCode failvalue,
      StepRet.retCode passvalue] = Except.ok failvalue ∧
    runStep [StepRet.retCode passvalue, StepRet.retCode abortvalue] =
      Except.ok abortvalue ∧
    runStep [StepRet.retCode passvalue, StepRet.retCode passvalue,
      StepRet.retCode abortvalue] = Except.ok abortvalue := by decide

/-- Claim C10.  Every `Result` built without an explicit `step_results`
argument — in particular the one each `Testcase.__init__` builds — is
bound to the single default list object evaluated at module load, so an
append made through one testcase's `Result` is visible through any
other's. -/
theorem C10_shared_default_results (s : PyState) (n1 n2 : String)
    (v rc : Nat) (hs : resultDefaultCell < s.cells.length) :
    (mkResult s n1 none rc).1.step_results = resultDefaultCell ∧
    (testcaseNewResult s n1).1.step_results =
      (testcaseNewResult s n2).1.step_results ∧
    readCell (cellAppend s (testcaseNewResult s n1).1.step_results v)
        ((testcaseNewResult s n2).1.step_results) =
      readCell s ((testcaseNewResult s n2).1.step_results) ++ [v] := by
  refine ⟨rfl, rfl, ?_⟩
  unfold testcaseNewResult mkResult readCell cellAppend resultDefaultCell
  cases s with
  | mk cells =>
    cases cells with
    | nil => simp [resultDefaultCell] at hs
    | cons c cs => simp [readCell, resultDefaultCell]

/-- Claim C10, witness at the module-load state with two testcase-created
results. -/
theorem C10_shared_default_results_witness :
    resultDefaultCell < loadedState.cells.length ∧
    readCell (cellAppend loadedState
        (testcaseNewResult loadedState "t1").1.step_results 7)
      ((testcaseNewResult loadedState "t2").1.step_results) =
      readCell loadedState
        ((testcaseNewResult loadedState "t2").1.step_results) ++ [7] :=
  ⟨by decide,
    (C10_shared_default_results loadedState "t1" "t2" 7 unvalue
      (by decide)).2.2⟩

end Chorus
